import Mathlib

/-!
Shallow embedding of the alpha-arena-prompt repository (Python sources
`src/api/latest_trades.py`, `src/backend/app.py`) and verification of the
frozen claims about its specification.

Modelling conventions:
* Python values flowing through `dict`s are modelled by `PyVal` (JSON-like).
* Python `float` arithmetic is modelled by `ℚ`; every numeric computation the
  program performs on the modelled paths (`/ 1000`, comparisons against
  `1e12`, epoch second arithmetic) is exact on the inputs exercised here.
* Code that can raise an exception is modelled in `Except`; `Except.error ()`
  marks a raised exception that the surrounding Python code may catch.
* Wall-clock reads (`_utc_now`, `datetime.utcnow`) are passed in explicitly
  as `String` parameters, and fetch results (`_fetch_json`) as
  `Except String PyVal` values, so every function is pure and executable.
-/

/-- Model of the Python values that travel through the JSON payloads:
`None`, `int`, `float` (as `ℚ`), `str`, `list`, `dict`. -/
inductive PyVal where
  | null
  | int (n : Int)
  | float (q : ℚ)
  | str (s : String)
  | list (xs : List PyVal)
  | dict (fields : List (String × PyVal))

/-- A Python dict with string keys (JSON object); association list in
insertion order, keys unique. -/
abbrev Dict := List (String × PyVal)

/-- `d.get(k)` on a Python dict: the value stored at `k`, or `None`. -/
def dget (d : Dict) (k : String) : PyVal :=
  match d.find? (fun p => p.1 == k) with
  | some p => p.2
  | Option.none => PyVal.null

/-- Python truthiness of a value (`bool(v)`). -/
def truthy : PyVal → Bool
  | .null => false
  | .int n => n != 0
  | .float q => q != 0
  | .str s => s != ""
  | .list xs => !xs.isEmpty
  | .dict fs => !fs.isEmpty

/-- Python `a or b` on values: `a` if truthy, else `b`. -/
def pyOr (a b : PyVal) : PyVal := if truthy a then a else b

/-- Stand-in textual form of a non-integral rational; Python float `repr`
for a non-integral value is never exercised by any claim, integral floats
print as in Python (`str(3.0) = "3.0"`). -/
def floatRepr (q : ℚ) : String :=
  if q.den = 1 then toString q.num ++ ".0" else toString q.num ++ "/" ++ toString q.den

/-- Python `str(v)` for the values reaching `str()`/f-string interpolation in
the sources.  `str(None) = "None"`; list/dict `repr` is never exercised on
the modelled paths, a stand-in shape is used. -/
def pyStr : PyVal → String
  | .null => "None"
  | .int n => toString n
  | .float q => floatRepr q
  | .str s => s
  | .list _ => "[...]"
  | .dict _ => "\x7b...\x7d"

/-- The whitespace characters Python's `str.strip()` removes (ASCII set;
no modelled input carries other Unicode whitespace). -/
def isSpaceChar (c : Char) : Bool :=
  c = ' ' ∨ c = '\t' ∨ c = '\n' ∨ c = '\r' ∨ c = '\x0b' ∨ c = '\x0c'

/-- Python `s.strip()`. -/
def pyStrip (s : String) : String :=
  String.mk (((s.toList.dropWhile isSpaceChar).reverse.dropWhile isSpaceChar).reverse)

/-- Digits of a `List Char` of decimal digits read as a natural number. -/
def digitsToNat (cs : List Char) : Nat :=
  cs.foldl (fun a c => a * 10 + (c.toNat - 48)) 0

/-- Model of Python `float(s)` on a string: optional sign, decimal digits
with optional fraction and exponent.  `inf`/`nan` and digit underscores are
not exercised by the sources' inputs and are rejected here. -/
def parseFloat (s : String) : Option ℚ :=
  let cs := (pyStrip s).toList
  let (sign, cs) : Int × List Char :=
    match cs with
    | '+' :: t => (1, t)
    | '-' :: t => (-1, t)
    | t => (1, t)
  let (ip, cs) := cs.span Char.isDigit
  let (fp, cs) :=
    match cs with
    | '.' :: t => t.span Char.isDigit
    | t => ([], t)
  if ip.isEmpty && fp.isEmpty then Option.none
  else
    let mant : Int := (digitsToNat (ip ++ fp) : Int)
    match cs with
    | [] => some (mkRat (sign * mant) (10 ^ fp.length))
    | e :: t =>
      if e = 'e' ∨ e = 'E' then
        let (epos, t) : Bool × List Char :=
          match t with
          | '+' :: u => (true, u)
          | '-' :: u => (false, u)
          | u => (true, u)
        let (ed, t) := t.span Char.isDigit
        if ed.isEmpty || !t.isEmpty then Option.none
        else
          let ex := digitsToNat ed
          if epos then some (mkRat (sign * mant * ((10 ^ ex : Nat) : Int)) (10 ^ fp.length))
          else some (mkRat (sign * mant) (10 ^ (fp.length + ex)))
      else Option.none

/-- Model of Python `int(s)` on a string: optional sign and decimal digits
only (base 10); digit underscores are not exercised and are rejected. -/
def parseIntPy (s : String) : Option Int :=
  let cs := (pyStrip s).toList
  let (sign, cs) : Int × List Char :=
    match cs with
    | '+' :: t => (1, t)
    | '-' :: t => (-1, t)
    | t => (1, t)
  let (ds, rest) := cs.span Char.isDigit
  if ds.isEmpty || !rest.isEmpty then Option.none
  else some (sign * (digitsToNat ds : Int))

/-- `_coerce_float(value)`: `float(value)` collapsed to `None` on
`TypeError`/`ValueError` (`None`, lists and dicts are not numbers). -/
def coerceFloat : PyVal → Option ℚ
  | .int n => some (mkRat n 1)
  | .float q => some q
  | .str s => parseFloat s
  | _ => Option.none

instance {e a : Type} [DecidableEq e] [DecidableEq a] : DecidableEq (Except e a)
  | .error x, .error y =>
    if h : x = y then isTrue (by rw [h]) else isFalse (fun hh => h (by injection hh))
  | .error _, .ok _ => isFalse (fun hh => Except.noConfusion hh)
  | .ok _, .error _ => isFalse (fun hh => Except.noConfusion hh)
  | .ok x, .ok y =>
    if h : x = y then isTrue (by rw [h]) else isFalse (fun hh => h (by injection hh))

/-! ### Calendar arithmetic (model of CPython `datetime` on the UTC paths) -/

/-- Proleptic-Gregorian civil date from days since 1970-01-01 (Howard
Hinnant's `civil_from_days`; Euclidean division makes it valid for negative
day counts as well). -/
def civilFromDays (z0 : Int) : Int × Int × Int :=
  let z := z0 + 719468
  let era := z.ediv 146097
  let doe := z.emod 146097
  let yoe := (doe - doe.ediv 1460 + doe.ediv 36524 - doe.ediv 146096).ediv 365
  let y := yoe + era * 400
  let doy := doe - (365 * yoe + yoe.ediv 4 - yoe.ediv 100)
  let mp := (5 * doy + 2).ediv 153
  let d := doy - (153 * mp + 2).ediv 5 + 1
  let m := if mp < 10 then mp + 3 else mp - 9
  (if m ≤ 2 then y + 1 else y, m, d)

/-- Days since 1970-01-01 of a proleptic-Gregorian civil date (inverse of
`civilFromDays`). -/
def daysFromCivil (y0 m d : Int) : Int :=
  let y := if m ≤ 2 then y0 - 1 else y0
  let era := y.ediv 400
  let yoe := y - era * 400
  let doy := (153 * (if m > 2 then m - 3 else m + 9) + 2).ediv 5 + d - 1
  let doe := yoe * 365 + yoe.ediv 4 - yoe.ediv 100 + doy
  era * 146097 + doe - 719468

/-- Zero-padded decimal rendering of a non-negative component. -/
def padNum (width : Nat) (n : Int) : String :=
  let s := toString n.toNat
  String.mk (List.replicate (width - s.length) '0') ++ s

/-- `datetime.isoformat()` body (no UTC offset suffix) of a UTC datetime;
microseconds are printed only when non-zero, as CPython does. -/
def fmtDT (y mo d h mi s usec : Int) : String :=
  padNum 4 y ++ "-" ++ padNum 2 mo ++ "-" ++ padNum 2 d ++ "T" ++
    padNum 2 h ++ ":" ++ padNum 2 mi ++ ":" ++ padNum 2 s ++
    (if usec == 0 then "" else "." ++ padNum 6 usec)

/-- `datetime.fromtimestamp(q, tz=timezone.utc).isoformat()` body: `none`
models the `ValueError`/`OverflowError` CPython raises when the year falls
outside 1..9999.  Sub-second parts are floored to microseconds; no modelled
input has a fractional part. -/
def epochToISO (q : ℚ) : Option String :=
  let den : Int := (q.den : Int)
  let secs : Int := q.num.ediv den
  let usec : Int := ((q.num - secs * den) * 1000000).ediv den
  let ymd := civilFromDays (secs.ediv 86400)
  let y := ymd.1
  let mo := ymd.2.1
  let d := ymd.2.2
  let sod := secs.emod 86400
  if y < 1 ∨ 9999 < y then Option.none
  else some (fmtDT y mo d (sod.ediv 3600) ((sod.emod 3600).ediv 60) (sod.emod 60) usec)

/-- Parsed `datetime` produced by `datetime.fromisoformat`: civil fields,
microseconds and an optional UTC offset in minutes. -/
structure DT where
  year : Int
  month : Int
  day : Int
  hour : Int
  minute : Int
  second : Int
  usec : Int
  offset : Option Int
  deriving DecidableEq, Repr

/-- Leap year in the proleptic Gregorian calendar. -/
def isLeap (y : Int) : Bool := (y.emod 4 == 0 && y.emod 100 != 0) || y.emod 400 == 0

/-- Number of days in a month. -/
def daysInMonth (y m : Int) : Int :=
  if m = 2 then (if isLeap y then 29 else 28)
  else if m = 4 ∨ m = 6 ∨ m = 9 ∨ m = 11 then 30
  else 31

/-- Exactly `n` decimal digits from the front of a character list. -/
def takeDigits (n : Nat) (cs : List Char) : Option (Nat × List Char) :=
  let ds := cs.take n
  if ds.length = n && ds.all Char.isDigit then some (digitsToNat ds, cs.drop n)
  else Option.none

/-- Time-of-day part `HH:MM[:SS[.f{1-6}]]` with optional `±HH:MM` offset,
consuming the whole list. -/
def parseTimePart (cs : List Char) : Option (Int × Int × Int × Int × Option Int) := do
  let (h, cs) ← takeDigits 2 cs
  match cs with
  | ':' :: cs => do
    let (mi, cs) ← takeDigits 2 cs
    let (sec, frac, cs) ←
      match cs with
      | ':' :: cs => do
        let (sec, cs) ← takeDigits 2 cs
        match cs with
        | '.' :: cs =>
          let (fd, cs) := cs.span Char.isDigit
          if fd.length = 0 ∨ 6 < fd.length then Option.none
          else some ((sec : Int), (digitsToNat fd * 10 ^ (6 - fd.length) : Nat), cs)
        | cs => some ((sec : Int), 0, cs)
      | cs => some ((0 : Int), 0, cs)
    let (off, cs) ←
      match cs with
      | c :: cs =>
        if c = '+' ∨ c = '-' then do
          let (oh, cs) ← takeDigits 2 cs
          match cs with
          | ':' :: cs => do
            let (om, cs) ← takeDigits 2 cs
            if oh ≤ 23 ∧ om ≤ 59 then
              some (some ((if c = '+' then 1 else -1) * ((oh : Int) * 60 + om)), cs)
            else Option.none
          | _ => Option.none
        else Option.none
      | [] => some ((Option.none : Option Int), ([] : List Char))
    if cs.isEmpty ∧ h ≤ 23 ∧ mi ≤ 59 ∧ sec ≤ 59 then
      some ((h : Int), (mi : Int), sec, (frac : Int), off)
    else Option.none
  | _ => Option.none

/-- Model of `datetime.fromisoformat`: `YYYY-MM-DD`, optionally followed by a
one-character separator and `HH:MM[:SS[.f{1-6}]][±HH:MM]`.  (CPython also
accepts offset seconds and bare-hour times; no source input uses them.) -/
def parseIsoDT (s : String) : Option DT := do
  let cs := s.toList
  let (y, cs) ← takeDigits 4 cs
  match cs with
  | '-' :: cs => do
    let (mo, cs) ← takeDigits 2 cs
    match cs with
    | '-' :: cs => do
      let (d, cs) ← takeDigits 2 cs
      if 1 ≤ mo ∧ mo ≤ 12 ∧ 1 ≤ d ∧ (d : Int) ≤ daysInMonth y mo then
        match cs with
        | [] => some ⟨y, mo, d, 0, 0, 0, 0, Option.none⟩
        | _ :: rest => do
          let (h, mi, sec, usec, off) ← parseTimePart rest
          some ⟨y, mo, d, h, mi, sec, usec, off⟩
      else Option.none
    | _ => Option.none
  | _ => Option.none

/-- `dt.astimezone(timezone.utc).isoformat()` body for a parsed datetime: a
naive datetime is tagged UTC unchanged; an aware one is shifted by its
offset, `none` modelling the (uncaught) overflow CPython raises when the
shifted year leaves 1..9999. -/
def convertToUTC (dt : DT) : Option String :=
  match dt.offset with
  | Option.none => some (fmtDT dt.year dt.month dt.day dt.hour dt.minute dt.second dt.usec)
  | some off =>
    let total := daysFromCivil dt.year dt.month dt.day * 86400 +
      dt.hour * 3600 + dt.minute * 60 + dt.second - off * 60
    let ymd := civilFromDays (total.ediv 86400)
    let sod := total.emod 86400
    if ymd.1 < 1 ∨ 9999 < ymd.1 then Option.none
    else some (fmtDT ymd.1 ymd.2.1 ymd.2.2 (sod.ediv 3600) ((sod.emod 3600).ediv 60)
      (sod.emod 60) dt.usec)

/-- Python `candidate.replace("Z", "+00:00")`: the pattern is the single
character `Z`, so every `Z` is expanded. -/
def replZ : List Char → List Char
  | [] => []
  | c :: t =>
    if c = 'Z' then '+' :: '0' :: '0' :: ':' :: '0' :: '0' :: replZ t else c :: replZ t

/-- Every `Z` of a string replaced by `+00:00`. -/
def replaceZ (s : String) : String := String.mk (replZ s.toList)

/-- Python `candidate.replace(" ", "T", 1)` (first occurrence only). -/
def replSp : List Char → List Char
  | [] => []
  | c :: t => if c = ' ' then 'T' :: t else c :: replSp t

/-- First space of a string replaced by `T`. -/
def replaceFirstSpace (s : String) : String := String.mk (replSp s.toList)

/-- The `1e12` milliseconds threshold of `_ensure_iso8601`; `1e12 < v` is
computed on the exact representation (`10^12 * den < num`). -/
def epochThreshold : ℚ := 1000000000000

/-- `epoch_seconds > 1e12`, decided on the numerator/denominator pair. -/
def gtThreshold (v : ℚ) : Bool := 1000000000000 * (v.den : Int) < v.num

/-- Tail of the epoch-seconds branch: `datetime.fromtimestamp(...)` plus
`Z`-suffix formatting, `.error ()` when `fromtimestamp` raises. -/
def epochOut (v : ℚ) : Except Unit (Option String) :=
  match epochToISO v with
  | some s => .ok (some (s ++ "Z"))
  | Option.none => .error ()

/-- Epoch-number branch of `_ensure_iso8601`: values greater than `1e12`
(signed comparison, exactly as the code) are treated as milliseconds. -/
def epochPath (v : ℚ) : Except Unit (Option String) :=
  if gtThreshold v then epochOut (mkRat v.num (v.den * 1000)) else epochOut v

/-- Outcome of the `fromisoformat` attempt: a parsed datetime is converted
to UTC and suffixed with `Z` (conversion overflow raises); a parse failure
returns the stripped candidate verbatim. -/
def isoParsedOut (dtOpt : Option DT) (candidate : String) : Except Unit (Option String) :=
  match dtOpt with
  | some dt =>
    match convertToUTC dt with
    | some body => .ok (some (body ++ "Z"))
    | Option.none => .error ()
  | Option.none => .ok (some candidate)

/-- Non-numeric-string branch of `_ensure_iso8601`: try `float(candidate)`
first, else normalise `Z` and the first space and try `fromisoformat`. -/
def isoStringBranch (candidate : String) : Except Unit (Option String) :=
  match parseFloat candidate with
  | some v => epochPath v
  | Option.none =>
    isoParsedOut (parseIsoDT (replaceFirstSpace (replaceZ candidate))) candidate

/-- `_ensure_iso8601(value)`: best-effort conversion to ISO-8601 UTC.
`Except.error ()` models the exceptions that escape the function (datetime
range overflow); the `.ok` payload is the Python return value. -/
def ensureIso : PyVal → Except Unit (Option String)
  | .null => .ok Option.none
  | .int n => epochPath (mkRat n 1)
  | .float q => epochPath q
  | .str s =>
    if pyStrip s = "" then .ok Option.none else isoStringBranch (pyStrip s)
  | .list _ => .ok Option.none
  | .dict _ => .ok Option.none

/-! ### Record normalizer (`src/api/latest_trades.py`) -/

/-- Python truthiness of a `str | None` value. -/
def strTruthy : Option String → Bool
  | some s => s != ""
  | Option.none => false

/-- The unified record shape produced by `_normalize_trade` and
`_normalize_position`; field names follow the returned dict's keys. -/
structure NRec where
  id : String
  model_id : PyVal
  symbol : PyVal
  side : PyVal
  leverage : Option ℚ
  raw_leverage : PyVal
  quantity : PyVal
  entry_price : Option ℚ
  exit_price : Option ℚ
  profit_target : Option ℚ
  stop_loss : Option ℚ
  entry_human_time : PyVal
  exit_human_time : PyVal
  entry_time : Option String
  exit_time : Option String
  display_time : Option String
  realized_net_pnl : Option ℚ
  unrealized_pnl : Option ℚ
  confidence : Option ℚ
  current_price : Option ℚ
  status : String
  event : String

/-- `v.get(k)` where `v` may be any value: raises `AttributeError` (modelled
as `.error ()`) unless `v` is a dict. -/
def pyGetAttr (v : PyVal) (k : String) : Except Unit PyVal :=
  match v with
  | .dict fs => .ok (dget fs k)
  | _ => .error ()

/-- `_normalize_trade(trade)`; `trade` is a dict (both call sites guard with
`isinstance(trade, dict)`).  `.error ()` propagates the exceptions
`_ensure_iso8601` / `.get` on a non-dict exit-plan can raise. -/
def normalizeTrade (d : Dict) : Except Unit NRec := do
  let entryRaw := dget d "entry_time"
  let entryLabel := pyOr (dget d "entry_human_time") entryRaw
  let exitRaw := dget d "exit_time"
  let exitLabel := pyOr (dget d "exit_human_time") exitRaw
  let entryTime ← ensureIso entryRaw
  let exitTime ← ensureIso exitRaw
  let leverage := dget d "leverage"
  let exitPlan := pyOr (dget d "exit_plan") (.dict [])
  let pt ← pyGetAttr exitPlan "profit_target"
  let sl ← pyGetAttr exitPlan "stop_loss"
  .ok
    { id := pyStr (pyOr (dget d "trade_id") (pyOr (dget d "id") (.str "")))
      model_id := dget d "model_id"
      symbol := dget d "symbol"
      side := dget d "side"
      leverage := coerceFloat leverage
      raw_leverage := leverage
      quantity := dget d "quantity"
      entry_price := coerceFloat (dget d "entry_price")
      exit_price := coerceFloat (dget d "exit_price")
      profit_target := coerceFloat pt
      stop_loss := coerceFloat sl
      entry_human_time := entryLabel
      exit_human_time := exitLabel
      entry_time := entryTime
      exit_time := exitTime
      display_time := if strTruthy exitTime then exitTime else entryTime
      realized_net_pnl := coerceFloat (dget d "realized_net_pnl")
      unrealized_pnl := Option.none
      confidence := coerceFloat (dget d "confidence")
      current_price := Option.none
      status := if strTruthy exitTime then "closed" else "closed_pending"
      event := if strTruthy exitTime then "trade_closed" else "trade_record" }

/-- The record part of `_normalize_position(position)` after the
`_account_timestamp` hint has been popped: `d` is the already-mutated dict,
`hint` the popped value, `now` the `_utc_now()` wall-clock string. -/
def normalizePositionRec (now : String) (hint : PyVal) (d : Dict) : Except Unit NRec := do
  let entryRaw := pyOr (dget d "entry_time") hint
  let entryLabel := pyOr (dget d "entry_human_time") entryRaw
  let entryTime ← ensureIso entryRaw
  let leverage := dget d "leverage"
  let exitPlan := pyOr (dget d "exit_plan") (.dict [])
  let idChain := pyOr (dget d "position_id") (pyOr (dget d "id") (dget d "entry_oid"))
  let labelStr := if truthy entryLabel then pyStr entryLabel else ""
  let tailStr :=
    match entryTime with
    | some s => if s != "" then s else labelStr
    | Option.none => labelStr
  let identifier :=
    if truthy idChain then pyStr idChain
    else pyStr (dget d "model_id") ++ "-" ++ pyStr (dget d "symbol") ++ "-" ++ tailStr
  let displayTime ←
    match entryTime with
    | some s =>
      if s != "" then pure s
      else do
        let h ← ensureIso hint
        pure (match h with | some t => if t != "" then t else now | Option.none => now)
    | Option.none => do
      let h ← ensureIso hint
      pure (match h with | some t => if t != "" then t else now | Option.none => now)
  let pt ← pyGetAttr exitPlan "profit_target"
  let sl ← pyGetAttr exitPlan "stop_loss"
  .ok
    { id := identifier
      model_id := dget d "model_id"
      symbol := dget d "symbol"
      side := dget d "side"
      leverage := coerceFloat leverage
      raw_leverage := leverage
      quantity := dget d "quantity"
      entry_price := coerceFloat (dget d "entry_price")
      exit_price := Option.none
      profit_target := coerceFloat pt
      stop_loss := coerceFloat sl
      entry_human_time := entryLabel
      exit_human_time := PyVal.null
      entry_time := entryTime
      exit_time := Option.none
      display_time := some displayTime
      realized_net_pnl := Option.none
      unrealized_pnl := coerceFloat (dget d "unrealized_pnl")
      confidence := coerceFloat (dget d "confidence")
      current_price := coerceFloat (dget d "current_price")
      status := "open"
      event := "position_open" }

/-- `_normalize_position(position)`: pops `_account_timestamp` from the input
dict (the mutation is visible to the caller, hence the dict is returned too)
and builds the record. -/
def normalizePosition (now : String) (d : Dict) : Except Unit NRec × Dict :=
  let hint := dget d "_account_timestamp"
  let d' := d.filter (fun p => p.1 != "_account_timestamp")
  (normalizePositionRec now hint d', d')

/-! ### Identifier & ordering policy: `_sort_trades` -/

/-- Python sort key of `_sort_trades`: `(0, display_time)` for a string
`display_time`, `(1, "")` otherwise. -/
def sortKey (r : NRec) : Nat × String :=
  match r.display_time with
  | some s => (0, s)
  | Option.none => (1, "")

/-- Lexicographic (code-point) comparison of character lists — Python's
string `<=`. -/
def charListLe : List Char → List Char → Bool
  | [], _ => true
  | _ :: _, [] => false
  | a :: as, b :: bs =>
    if a.toNat < b.toNat then true
    else if b.toNat < a.toNat then false
    else charListLe as bs

/-- Python `a <= b` on strings: lexicographic by code point. -/
def strLe (a b : String) : Prop := charListLe a.toList b.toList = true

instance : ∀ a b, Decidable (strLe a b) := fun a b =>
  inferInstanceAs (Decidable (charListLe a.toList b.toList = true))

theorem charListLe_total : ∀ as bs, charListLe as bs = true ∨ charListLe bs as = true
  | [], _ => Or.inl rfl
  | _ :: _, [] => Or.inr rfl
  | a :: as, b :: bs => by
    rcases Nat.lt_trichotomy a.toNat b.toNat with h | h | h
    · left; simp [charListLe, h]
    · have hab : ¬ a.toNat < b.toNat := by omega
      have hba : ¬ b.toNat < a.toNat := by omega
      rcases charListLe_total as bs with ih | ih
      · left; simp [charListLe, hab, hba, ih]
      · right; simp [charListLe, hab, hba, ih]
    · right; simp [charListLe, h]

theorem charListLe_trans :
    ∀ as bs cs, charListLe as bs = true → charListLe bs cs = true →
      charListLe as cs = true
  | [], _, _ => fun _ _ => rfl
  | _ :: _, [], _ => fun h _ => absurd h (by simp [charListLe])
  | _ :: _, _ :: _, [] => fun _ h => absurd h (by simp [charListLe])
  | a :: as, b :: bs, c :: cs => by
    intro h1 h2
    have hba : ¬ b.toNat < a.toNat := by
      intro hba
      have hab : ¬ a.toNat < b.toNat := by omega
      simp [charListLe, hab, hba] at h1
    have hcb : ¬ c.toNat < b.toNat := by
      intro hcb
      have hbc : ¬ b.toNat < c.toNat := by omega
      simp [charListLe, hbc, hcb] at h2
    by_cases hac : a.toNat < c.toNat
    · simp [charListLe, hac]
    · have hca : ¬ c.toNat < a.toNat := by omega
      have hab : ¬ a.toNat < b.toNat := by omega
      have hbc : ¬ b.toNat < c.toNat := by omega
      simp only [charListLe, hab, hba, hbc, hcb, hac, hca, if_false, ite_false] at h1 h2 ⊢
      exact charListLe_trans as bs cs h1 h2

/-- Lexicographic order on Python tuples `(int, str)` as `sorted` compares
them. -/
def kle (a b : Nat × String) : Prop :=
  a.1 < b.1 ∨ (a.1 = b.1 ∧ strLe a.2 b.2)

instance : DecidableRel kle := fun a b =>
  inferInstanceAs (Decidable (a.1 < b.1 ∨ (a.1 = b.1 ∧ strLe a.2 b.2)))

/-- The order `sorted(trades, key=sort_key, reverse=True)` establishes:
descending in the key, input order preserved on ties. -/
def posRel (a b : NRec) : Prop := kle (sortKey b) (sortKey a)

instance : DecidableRel posRel := fun a b =>
  inferInstanceAs (Decidable (kle (sortKey b) (sortKey a)))

instance : IsTotal NRec posRel :=
  ⟨fun a b => by
    unfold posRel kle
    rcases Nat.lt_trichotomy (sortKey a).1 (sortKey b).1 with h | h | h
    · exact Or.inr (Or.inl h)
    · rcases charListLe_total (sortKey a).2.toList (sortKey b).2.toList with h2 | h2
      · exact Or.inr (Or.inr ⟨h, h2⟩)
      · exact Or.inl (Or.inr ⟨h.symm, h2⟩)
    · exact Or.inl (Or.inl h)⟩

instance : IsTrans NRec posRel :=
  ⟨fun a b c hab hbc => by
    unfold posRel kle at *
    rcases hab with h1 | ⟨e1, l1⟩
    · rcases hbc with h2 | ⟨e2, _⟩
      · exact Or.inl (h2.trans h1)
      · exact Or.inl (e2.trans_lt h1)
    · rcases hbc with h2 | ⟨e2, l2⟩
      · exact Or.inl (h2.trans_eq e1)
      · exact Or.inr ⟨e2.trans e1, charListLe_trans _ _ _ l2 l1⟩⟩

/-- `_sort_trades(trades)`: CPython's `sorted` is a stable sort, and with
`reverse=True` equal-key elements keep their input order; a stable sort for
the total preorder `posRel` computes exactly that, and Mathlib's
`insertionSort` is stable. -/
def sortTrades (l : List NRec) : List NRec := List.insertionSort posRel l

/-! ### Position reconciliation (`_collect_account_data`,
`_collect_open_positions`) and the stateless handler -/

/-- Output shape of `_normalize_account`. -/
structure ARec where
  model_id : String
  account_value : Option ℚ
  total_return_pct : Option ℚ
  realized_pnl : Option ℚ
  total_unrealized_pnl : Option ℚ
  timestamp : Option String

/-- `_normalize_account(entry)`. -/
def normalizeAccount (d : Dict) : Except Unit ARec := do
  let modelId := pyOr (dget d "model_id") (pyOr (dget d "modelId") (pyOr (dget d "id") (.str "")))
  let returnPct :=
    match coerceFloat (dget d "total_return_pct") with
    | some x => some (if |x| ≤ 1 then x * 100 else x)
    | Option.none => Option.none
  let ts ← ensureIso (dget d "timestamp")
  .ok
    { model_id := pyStr modelId
      account_value := coerceFloat (pyOr (dget d "dollar_equity") (dget d "account_value"))
      total_return_pct := returnPct
      realized_pnl := coerceFloat (dget d "realized_pnl")
      total_unrealized_pnl := coerceFloat (dget d "total_unrealized_pnl")
      timestamp := ts }

/-- `dict.setdefault(k, v)`: inserts `(k, v)` at the end only when the key is
absent (present-but-falsy values are kept). -/
def setdefault (d : Dict) (k : String) (v : PyVal) : Dict :=
  if (d.find? (fun p => p.1 == k)).isSome then d else d ++ [(k, v)]

/-- `_extract_positions_from_account_entry(entry)`: flatten the per-symbol
positions mapping, injecting `symbol`, `model_id` and the account timestamp
hint; an exception aborts the extraction (the caller then discards this
entry's local list). -/
def extractAccountPositions (now : String) (entry : Dict) : Except Unit (List NRec) :=
  match dget entry "positions" with
  | .dict pmap =>
    let modelId := pyOr (dget entry "model_id") (pyOr (dget entry "modelId") (dget entry "id"))
    let ts := dget entry "timestamp"
    pmap.foldl
      (fun acc sp => do
        let l ← acc
        match sp.2 with
        | .dict pd =>
          let pd := setdefault pd "symbol" (.str sp.1)
          let pd := setdefault pd "model_id" modelId
          let pd := match ts with | .null => pd | t => setdefault pd "_account_timestamp" t
          match (normalizePosition now pd).1 with
          | .ok r => pure (l ++ [r])
          | .error e => throw e
        | _ => pure l)
      (pure [])
  | _ => .ok []

/-- Loop body of `_collect_account_data`: the `try` wraps the whole loop, so
an exception keeps everything appended before it and stops; a failed
per-entry extraction still keeps that entry's already-appended account. -/
def accountLoop (now : String) : List PyVal → List ARec × List NRec → List ARec × List NRec
  | [], acc => acc
  | e :: rest, (accts, poss) =>
    match e with
    | .dict ed =>
      match normalizeAccount ed with
      | .error _ => (accts, poss)
      | .ok a =>
        match extractAccountPositions now ed with
        | .error _ => (accts ++ [a], poss)
        | .ok ps => accountLoop now rest (accts ++ [a], poss ++ ps)
    | _ => accountLoop now rest (accts, poss)

/-- `_collect_account_data()`: fetch `/account-totals` and flatten; any
failure (the fetch itself, a non-dict payload whose `.get` raises, or an
exception mid-loop) is caught and yields whatever was accumulated. -/
def collectAccountData (now : String) (accountResult : Except String PyVal) :
    List ARec × List NRec :=
  match accountResult with
  | .error _ => ([], [])
  | .ok payload =>
    match payload with
    | .dict fs =>
      match pyOr (dget fs "accountTotals") (pyOr (dget fs "accounts") (.dict fs)) with
      | .list xs => accountLoop now xs ([], [])
      | _ => ([], [])
    | _ => ([], [])

/-- `positions_by_id`: a Python dict keyed by id, insertion-ordered. -/
abbrev PosMap := List (String × NRec)

/-- Python dict assignment `m[k] = v`: overwrite in place or append. -/
def dinsert (m : PosMap) (k : String) (v : NRec) : PosMap :=
  match m with
  | [] => [(k, v)]
  | p :: rest => if p.1 = k then (k, v) :: rest else p :: dinsert rest k v

/-- Python `m[k]` / `k in m` on `positions_by_id`. -/
def plookup (m : PosMap) (k : String) : Option NRec :=
  (m.find? (fun p => p.1 == k)).map (fun p => p.2)

/-- Primary-endpoint loop of `_collect_open_positions`: normalize each dict
entry and index by id (only truthy, i.e. non-empty, ids are stored); an
exception aborts the loop keeping the partial map (`true` flags the abort
the surrounding `try` catches). -/
def primaryLoop (now : String) : List PyVal → PosMap → PosMap × Bool
  | [], m => (m, false)
  | p :: rest, m =>
    match p with
    | .dict pd =>
      match (normalizePosition now pd).1 with
      | .error _ => (m, true)
      | .ok r =>
        primaryLoop now rest (if r.id != "" then dinsert m r.id r else m)
    | _ => primaryLoop now rest m

/-- Primary `/positions` fetch of `_collect_open_positions`: the resulting
id-indexed map plus the diagnostic messages recorded on failure.  Messages
standing in for a Python exception's text are fixed strings here. -/
def primaryMap (now : String) (positionsResult : Except String PyVal) :
    PosMap × List String :=
  match positionsResult with
  | .error e => ([], ["/positions -> " ++ e])
  | .ok payload =>
    match payload with
    | .dict fs =>
      match pyOr (dget fs "positions") (pyOr (dget fs "data") (.dict fs)) with
      | .list xs =>
        match primaryLoop now xs [] with
        | (m, true) => (m, ["/positions -> exception during normalization"])
        | (m, false) => (m, [])
      | _ => ([], ["Unexpected /positions response shape"])
    | _ => ([], ["/positions -> AttributeError"])

/-- Fallback merge of `_collect_open_positions`: a fallback position is added
only when its id is truthy and not already present. -/
def mergeFallback (m : PosMap) : List NRec → PosMap
  | [] => m
  | p :: rest =>
    mergeFallback
      (if p.id != "" && (plookup m p.id).isNone then m ++ [(p.id, p)] else m) rest

/-- The external inputs of one stateless request: the three fetch outcomes,
the wall clock, and the module configuration (`POSITIONS_LIMIT`,
`DEFAULT_LIMIT`). -/
structure Env where
  tradesResult : Except String PyVal
  positionsResult : Except String PyVal
  accountResult : Except String PyVal
  now : String
  positionsLimit : Int
  defaultLimit : Int

/-- Result of `_collect_open_positions()`: sorted truncated positions, the
accounts, and the diagnostic messages printed (never raised). -/
structure CollectResult where
  positions : List NRec
  accounts : List ARec
  errors : List String

/-- The id-indexed map after the fallback pass of
`_collect_open_positions`: primary first, fallback filling gaps only. -/
def mergedPositions (env : Env) : PosMap :=
  mergeFallback (primaryMap env.now env.positionsResult).1
    (collectAccountData env.now env.accountResult).2

/-- `_collect_open_positions()`. -/
def collectOpenPositions (env : Env) : CollectResult :=
  { positions := (sortTrades ((mergedPositions env).map (fun p => p.2))).take
      (max env.positionsLimit 1).toNat
    accounts := (collectAccountData env.now env.accountResult).1
    errors := (primaryMap env.now env.positionsResult).2 }

/-- The `limit` computation of `handler.do_GET`: a missing or unparsable
query parameter falls back to `DEFAULT_LIMIT`. -/
def limitFrom (p : Option String) (dflt : Int) : Int :=
  match p with
  | Option.none => dflt
  | some s => (parseIntPy s).getD dflt

/-- `[_normalize_trade(tr) for tr in trades_raw if isinstance(tr, dict)]`;
an exception mid-comprehension propagates to `do_GET`'s handler. -/
def normTradeList (xs : List PyVal) : Except Unit (List NRec) :=
  (xs.filterMap (fun v => match v with | .dict d => some d | _ => Option.none)).mapM
    normalizeTrade

/-- The closed-trades portion of the response: normalized, id-filtered,
sorted, truncated to `max(limit, 1)`. -/
def limitedClosedTrades (recs : List NRec) (limit : Int) : List NRec :=
  ((sortTrades (recs.filter (fun r => r.id != ""))).take (max limit 1).toNat)

/-- Response of `do_GET`: `ok` carries the JSON body's modelled fields, `err`
the 502 error message. -/
inductive GetOutcome where
  | ok (limit : Int) (trades : List NRec) (accounts : List ARec)
  | err (msg : String)

/-- `handler.do_GET` on the stateless endpoint: parse `limit`, fetch and
normalize `/trades`, reconcile positions, combine and sort. -/
def doGet (env : Env) (limitParam : Option String) : GetOutcome :=
  match env.tradesResult with
  | .error e => .err e
  | .ok payload =>
    match payload with
    | .dict fs =>
      match dget fs "trades" with
      | .list xs =>
        match normTradeList xs with
        | .error _ => .err "exception during normalization"
        | .ok recs =>
          .ok (limitFrom limitParam env.defaultLimit)
            (sortTrades
              (limitedClosedTrades recs (limitFrom limitParam env.defaultLimit) ++
                (collectOpenPositions env).positions))
            (collectOpenPositions env).accounts
      | _ => .err "Unexpected response shape from /trades"
    | _ => .err "AttributeError"

/-! ### Poll/Delta cache (`src/backend/app.py`, `TradePoller`) -/

/-- Output shape of `TradePoller._summarize_trade`: plain passthrough of the
upstream fields, no coercion. -/
structure TradeSummary where
  id : String
  symbol : PyVal
  side : PyVal
  quantity : PyVal
  entry_price : PyVal
  exit_price : PyVal
  entry_time : PyVal
  exit_time : PyVal
  realized_net_pnl : PyVal
  confidence : PyVal
  model_id : PyVal

/-- `str(trade.get("id") or trade.get("trade_id") or "")` — the poller's
trade-id derivation (note: `id` before `trade_id`, unlike the stateless
normalizer). -/
def tradeIdOf (d : Dict) : String :=
  pyStr (pyOr (dget d "id") (pyOr (dget d "trade_id") (.str "")))

/-- `TradePoller._summarize_trade(trade)`. -/
def summarizeTrade (d : Dict) : TradeSummary :=
  { id := tradeIdOf d
    symbol := dget d "symbol"
    side := dget d "side"
    quantity := dget d "quantity"
    entry_price := dget d "entry_price"
    exit_price := dget d "exit_price"
    entry_time := pyOr (dget d "entry_human_time") (dget d "entry_time")
    exit_time := pyOr (dget d "exit_human_time") (dget d "exit_time")
    realized_net_pnl := dget d "realized_net_pnl"
    confidence := dget d "confidence"
    model_id := dget d "model_id" }

/-- Mutable state of a `TradePoller`.  `_known_trade_ids` is a Python `set`
observed only through membership tests; it is modelled as the list of
incoming ids (duplicates are irrelevant to membership). -/
structure PollerState where
  initialized : Bool
  knownTradeIds : List String
  recentTrades : List TradeSummary
  newTrades : List TradeSummary
  lastPollStarted : Option String
  lastPollCompleted : Option String
  lastError : Option String

/-- The poller state at process start. -/
def initialPollerState : PollerState :=
  { initialized := false
    knownTradeIds := []
    recentTrades := []
    newTrades := []
    lastPollStarted := Option.none
    lastPollCompleted := Option.none
    lastError := Option.none }

/-- Inputs of one polling cycle: the two wall-clock reads and the combined
outcome of `self._fetch` + `json.loads` (both raise with a message on
failure). -/
structure CycleInput where
  startedAt : String
  completedAt : String
  outcome : Except String PyVal

/-- `payload.get("trades")` plus the shape check of `_poll_once`: a non-dict
payload raises `AttributeError`, a non-list `trades` raises
`ValueError("Unexpected trades payload shape")`. -/
def parseTrades : Except String PyVal → Except String (List PyVal)
  | .error e => .error e
  | .ok (.dict fs) =>
    match dget fs "trades" with
    | .list ts => .ok ts
    | _ => .error "Unexpected trades payload shape"
  | .ok _ => .error "AttributeError"

/-- The per-trade loop of `_poll_once`: left-to-right over the payload,
appending (summaries, incoming ids, new trades); trades that are not dicts
or have a falsy id are skipped; a trade is new when the poller is
initialized and its id is not in the previous known-id set. -/
def scanTrades (inited : Bool) (known : List String) :
    List PyVal → List TradeSummary × List String × List TradeSummary
  | [] => ([], [], [])
  | t :: rest =>
    let acc := scanTrades inited known rest
    match t with
    | .dict td =>
      let tid := tradeIdOf td
      if tid = "" then acc
      else
        (summarizeTrade td :: acc.1, tid :: acc.2.1,
          if inited ∧ tid ∉ known then summarizeTrade td :: acc.2.2 else acc.2.2)
    | _ => acc

/-- `TradePoller._poll_once()`: sets `last_poll_started`, then either raises
(returning the message; state otherwise untouched) or atomically publishes
the new snapshot fields. -/
def pollOnce (cacheLimit : Nat) (ci : CycleInput) (s : PollerState) :
    PollerState × Option String :=
  let s1 := { s with lastPollStarted := some ci.startedAt }
  match parseTrades ci.outcome with
  | .error e => (s1, some e)
  | .ok ts =>
    let scanned := scanTrades s1.initialized s1.knownTradeIds ts
    ({ s1 with
        recentTrades := scanned.1.take cacheLimit
        newTrades := scanned.2.2.take cacheLimit
        knownTradeIds := scanned.2.1
        initialized := true
        lastPollCompleted := some ci.completedAt
        lastError := Option.none }, Option.none)

/-- One iteration of `TradePoller._run_loop`: run `_poll_once`, and on an
exception record the message and the completion time, keeping everything
else. -/
def runLoopStep (cacheLimit : Nat) (ci : CycleInput) (s : PollerState) : PollerState :=
  match pollOnce cacheLimit ci s with
  | (s', Option.none) => s'
  | (s', some msg) => { s' with lastError := some msg, lastPollCompleted := some ci.completedAt }

/-- The scheduler loop: every cycle is processed in order regardless of
individual failures (the loop never terminates on an exception). -/
def runLoop (cacheLimit : Nat) (cis : List CycleInput) (s : PollerState) : PollerState :=
  cis.foldl (fun st ci => runLoopStep cacheLimit ci st) s

/-- The valid (dict-shaped, truthy-id) trades of a payload, summarized in
order — what `_poll_once` appends to `summaries`. -/
def validSummaries (ts : List PyVal) : List TradeSummary :=
  ts.filterMap
    (fun t =>
      match t with
      | .dict td => if tradeIdOf td = "" then Option.none else some (summarizeTrade td)
      | _ => Option.none)

/-- The ids of the valid trades, in order — what `_poll_once` appends to
`incoming_ids`. -/
def validIds (ts : List PyVal) : List String :=
  ts.filterMap
    (fun t =>
      match t with
      | .dict td => if tradeIdOf td = "" then Option.none else some (tradeIdOf td)
      | _ => Option.none)

/-! ### Claim C2: global sort order -/

/-- A blank record used to build concrete `_sort_trades` inputs (only `id`
and `display_time` matter to the sort). -/
def baseRec : NRec :=
  { id := ""
    model_id := .null
    symbol := .null
    side := .null
    leverage := Option.none
    raw_leverage := .null
    quantity := .null
    entry_price := Option.none
    exit_price := Option.none
    profit_target := Option.none
    stop_loss := Option.none
    entry_human_time := .null
    exit_human_time := .null
    entry_time := Option.none
    exit_time := Option.none
    display_time := Option.none
    realized_net_pnl := Option.none
    unrealized_pnl := Option.none
    confidence := Option.none
    current_price := Option.none
    status := ""
    event := "" }

/-- Record dated 2024-01-02. -/
def c2r1 : NRec := { baseRec with id := "T1", display_time := some "2024-01-02T00:00:00Z" }

/-- Record with a missing `display_time`. -/
def c2r2 : NRec := { baseRec with id := "T2" }

/-- Record dated 2024-01-01. -/
def c2r3 : NRec := { baseRec with id := "T3", display_time := some "2024-01-01T00:00:00Z" }

/-- C2 counterexample: on the spec's own example
`["2024-01-02T00:00:00Z", null, "2024-01-01T00:00:00Z"]`, `_sort_trades`
puts the `null`-display record FIRST, not last: the claimed output order
`[2024-01-02, 2024-01-01, null]` is not produced. -/
theorem c2_counterexample :
    (sortTrades [c2r1, c2r2, c2r3]).map (fun r => r.display_time) =
        [Option.none, some "2024-01-02T00:00:00Z", some "2024-01-01T00:00:00Z"] ∧
      (sortTrades [c2r1, c2r2, c2r3]).map (fun r => r.display_time) ≠
        [some "2024-01-02T00:00:00Z", some "2024-01-01T00:00:00Z", Option.none] := by
  constructor
  · decide
  · decide

/-- C2 (amended): `_sort_trades` permutes its input so that records with a
missing `display_time` sort strictly BEFORE all dated records (the key
`(1, "")` of undated records compares above every `(0, s)` under
`reverse=True`), and dated records are ordered descending by their
`display_time` string; on the spec's example the order is
`[null, 2024-01-02, 2024-01-01]`. -/
theorem c2_sort_order (l : List NRec) :
    (sortTrades l).Perm l ∧
      (sortTrades l).Pairwise posRel ∧
      (sortTrades l).Pairwise
        (fun a b => b.display_time = Option.none → a.display_time = Option.none) ∧
      (sortTrades l).Pairwise
        (fun a b =>
          ∀ sa sb, a.display_time = some sa → b.display_time = some sb → strLe sb sa) ∧
      (sortTrades [c2r1, c2r2, c2r3]).map (fun r => r.id) = ["T2", "T1", "T3"] := by
  refine ⟨List.perm_insertionSort posRel l, List.sorted_insertionSort posRel l, ?_, ?_, by decide⟩
  · refine (List.sorted_insertionSort posRel l).imp ?_
    intro a b hab hb
    rcases ha : a.display_time with _ | sa
    · rfl
    · exfalso
      unfold posRel kle sortKey at hab
      rw [ha, hb] at hab
      rcases hab with h | ⟨h, _⟩
      · exact absurd h (by norm_num)
      · exact absurd h (by norm_num)
  · refine (List.sorted_insertionSort posRel l).imp ?_
    intro a b hab sa sb ha hb
    unfold posRel kle sortKey at hab
    rw [ha, hb] at hab
    rcases hab with h | ⟨_, h⟩
    · exact absurd h (by norm_num)
    · exact h

/-! ### Claims C3/C4: position reconciliation -/

theorem plookup_append_of_some {m l : PosMap} {k : String} {r : NRec}
    (h : plookup m k = some r) : plookup (m ++ l) k = some r := by
  unfold plookup at h ⊢
  rw [List.find?_append]
  rcases hm : m.find? (fun p => p.1 == k) with _ | p
  · rw [hm] at h; exact absurd h (by simp)
  · rw [hm] at h
    rw [hm, Option.or_some]
    exact h

theorem plookup_append_none {m l : PosMap} {k : String}
    (h : plookup (m ++ l) k = Option.none) : plookup m k = Option.none := by
  unfold plookup at h ⊢
  rw [List.find?_append] at h
  rcases hm : m.find? (fun p => p.1 == k) with _ | p
  · rw [hm]; rfl
  · rw [hm, Option.or_some] at h; exact absurd h (by simp)

theorem plookup_append_singleton {m : PosMap} {k k' : String} {v r : NRec}
    (h : plookup (m ++ [(k', v)]) k = some r)
    (hm : plookup m k = Option.none) : k' = k ∧ v = r := by
  unfold plookup at h hm
  rw [List.find?_append] at h
  rcases hmf : m.find? (fun p => p.1 == k) with _ | p
  · rw [hmf] at h
    by_cases hk : k' == k
    · refine ⟨by simpa using hk, ?_⟩
      simp [List.find?, hk] at h
      exact h
    · simp [List.find?, hk] at h
  · rw [hmf] at hm; simp at hm

theorem plookup_mergeFallback_of_some :
    ∀ (ps : List NRec) (m : PosMap) (k : String) (r : NRec),
      plookup m k = some r → plookup (mergeFallback m ps) k = some r
  | [], _, _, _ => fun h => h
  | p :: rest, m, k, r => fun h => by
    show plookup
      (mergeFallback (if p.id != "" && (plookup m p.id).isNone then m ++ [(p.id, p)] else m)
        rest) k = some r
    refine plookup_mergeFallback_of_some rest _ k r ?_
    split
    · exact plookup_append_of_some h
    · exact h

theorem plookup_mergeFallback_cases :
    ∀ (ps : List NRec) (m : PosMap) (k : String) (r : NRec),
      plookup (mergeFallback m ps) k = some r →
      plookup m k = some r ∨ (plookup m k = Option.none ∧ r ∈ ps)
  | [], _, _, _ => fun h => Or.inl h
  | p :: rest, m, k, r => fun h => by
    have h' := plookup_mergeFallback_cases rest _ k r h
    rcases h' with h' | ⟨hnone, hmem⟩
    · by_cases hc : (p.id != "" && (plookup m p.id).isNone) = true
      · rw [if_pos hc] at h'
        by_cases hk : plookup m k = Option.none
        · rcases plookup_append_singleton h' hk with ⟨_, hv⟩
          exact Or.inr ⟨hk, by simp [hv]⟩
        · rcases ho : plookup m k with _ | v
          · exact absurd ho hk
          · left
            rw [plookup_append_of_some ho] at h'
            exact h'
      · rw [if_neg hc] at h'
        exact Or.inl h'
    · by_cases hc : (p.id != "" && (plookup m p.id).isNone) = true
      · rw [if_pos hc] at hnone
        exact Or.inr ⟨plookup_append_none hnone, List.mem_cons_of_mem _ hmem⟩
      · rw [if_neg hc] at hnone
        exact Or.inr ⟨hnone, List.mem_cons_of_mem _ hmem⟩

/-- C3: every id found in the primary `/positions` map keeps exactly its
primary record in the merged map, and any merged entry not from the primary
map fills a gap: its id is absent from the primary map and its record comes
from the fallback list. -/
theorem c3_primary_precedence (env : Env) :
    (∀ k r, plookup (primaryMap env.now env.positionsResult).1 k = some r →
        plookup (mergedPositions env) k = some r) ∧
      (∀ k r, plookup (mergedPositions env) k = some r →
        plookup (primaryMap env.now env.positionsResult).1 k = some r ∨
          (plookup (primaryMap env.now env.positionsResult).1 k = Option.none ∧
            r ∈ (collectAccountData env.now env.accountResult).2)) := by
  constructor
  · intro k r h
    exact plookup_mergeFallback_of_some _ _ k r h
  · intro k r h
    exact plookup_mergeFallback_cases _ _ k r h

/-- Primary `/positions` entry `P1` used by the C3 witness. -/
def c3PrimaryPos : Dict :=
  [("position_id", PyVal.str "P1"), ("symbol", PyVal.str "BTC"), ("side", PyVal.str "long")]

/-- Environment of the C3 witness: the primary source returns `P1` (side
`long`), the fallback account source also contains `P1` with different
fields (side `short`). -/
def c3Env : Env :=
  { tradesResult := .ok (.dict [("trades", .list [])])
    positionsResult := .ok (.dict [("positions", .list [.dict c3PrimaryPos])])
    accountResult := .ok (.dict [("accounts", .list [.dict
      [("model_id", PyVal.str "m1"),
       ("positions", PyVal.dict [("ETH", .dict
         [("position_id", PyVal.str "P1"), ("side", PyVal.str "short")])])]])])
    now := "2024-05-05T00:00:00Z"
    positionsLimit := 200
    defaultLimit := 60 }

/-- The normalized primary record for `P1`. -/
def c3PrimaryRec : NRec :=
  match (normalizePosition "2024-05-05T00:00:00Z" c3PrimaryPos).1 with
  | .ok r => r
  | .error _ => baseRec

/-- C3 witness: with `P1` in both sources, the merged map keeps exactly the
primary record (side `long`), although the fallback carried a different
`P1` (side `short`). -/
theorem c3_witness :
    plookup (primaryMap c3Env.now c3Env.positionsResult).1 "P1" = some c3PrimaryRec ∧
      plookup (mergedPositions c3Env) "P1" = some c3PrimaryRec ∧
      pyStr c3PrimaryRec.side = "long" ∧
      (collectAccountData c3Env.now c3Env.accountResult).2.map (fun r => (r.id, pyStr r.side)) =
        [("P1", "short")] := by
  have h : plookup (primaryMap c3Env.now c3Env.positionsResult).1 "P1" = some c3PrimaryRec :=
    rfl
  exact ⟨h, (c3_primary_precedence c3Env).1 "P1" c3PrimaryRec h, rfl, rfl⟩

/-- C4: `_collect_open_positions` never re-raises a fetch failure (it is a
total function of the two fetch outcomes): when the primary `/positions`
fetch raises, the positions are exactly the fallback positions
(deduplicated, sorted, truncated) and the error string is recorded as a
diagnostic; when the account-totals fetch raises, the positions are exactly
the primary positions. -/
theorem c4_fault_tolerance :
    (∀ env e, env.positionsResult = Except.error e →
      (collectOpenPositions env).positions =
          (sortTrades
            ((mergeFallback [] (collectAccountData env.now env.accountResult).2).map
              (fun p => p.2))).take (max env.positionsLimit 1).toNat ∧
        ("/positions -> " ++ e) ∈ (collectOpenPositions env).errors) ∧
      (∀ env e, env.accountResult = Except.error e →
        (collectOpenPositions env).positions =
          (sortTrades ((primaryMap env.now env.positionsResult).1.map (fun p => p.2))).take
            (max env.positionsLimit 1).toNat) := by
  constructor
  · intro env e h
    have h1 : primaryMap env.now env.positionsResult = ([], ["/positions -> " ++ e]) := by
      rw [h]
      rfl
    constructor
    · show (sortTrades
          ((mergeFallback (primaryMap env.now env.positionsResult).1
            (collectAccountData env.now env.accountResult).2).map (fun p => p.2))).take
          (max env.positionsLimit 1).toNat = _
      rw [h1]
    · show ("/positions -> " ++ e) ∈ (primaryMap env.now env.positionsResult).2
      rw [h1]
      exact List.mem_singleton.mpr rfl
  · intro env e h
    show (sortTrades
        ((mergeFallback (primaryMap env.now env.positionsResult).1
          (collectAccountData env.now env.accountResult).2).map (fun p => p.2))).take
        (max env.positionsLimit 1).toNat = _
    rw [h]
    rfl

/-- Environment of the C4 witness: primary positions fetch raises `boom`,
the fallback account source carries two positions `Q1`, `Q2`. -/
def c4Env : Env :=
  { tradesResult := .ok (.dict [("trades", .list [])])
    positionsResult := .error "boom"
    accountResult := .ok (.dict [("accountTotals", .list [.dict
      [("model_id", PyVal.str "m2"), ("timestamp", PyVal.int 1700000000),
       ("positions", PyVal.dict
         [("BTC", .dict [("position_id", PyVal.str "Q1")]),
          ("ETH", .dict [("position_id", PyVal.str "Q2")])])]])])
    now := "NOW"
    positionsLimit := 200
    defaultLimit := 60 }

/-- C4 witness: the spec's fault-tolerance example — primary throws, the
final position list is exactly the two fallback positions, and the error
string is recorded, not raised. -/
theorem c4_witness :
    (collectOpenPositions c4Env).positions =
        (sortTrades
          ((mergeFallback [] (collectAccountData c4Env.now c4Env.accountResult).2).map
            (fun p => p.2))).take (max c4Env.positionsLimit 1).toNat ∧
      ("/positions -> boom") ∈ (collectOpenPositions c4Env).errors ∧
      (collectOpenPositions c4Env).positions.map (fun r => r.id) = ["Q1", "Q2"] := by
  refine ⟨(c4_fault_tolerance.1 c4Env "boom" rfl).1,
    (c4_fault_tolerance.1 c4Env "boom" rfl).2, ?_⟩
  decide

/-! ### Claim C6: normalization idempotence -/

/-- A raw position carrying only an account-timestamp hint, which
`_normalize_position` pops from the input dict. -/
def c6Dict : Dict := [("_account_timestamp", PyVal.int 1700000000)]

/-- C6 counterexample: `_normalize_position` mutates its input (it pops
`_account_timestamp`), so applying it twice to the same raw dict yields
different records: the first call derives `display_time` from the hint,
the second falls back to the wall clock. -/
theorem c6_counterexample :
    (normalizePosition "NOW" c6Dict).1.map (fun r => r.display_time) =
        .ok (some "2023-11-14T22:13:20Z") ∧
      (normalizePosition "NOW" (normalizePosition "NOW" c6Dict).2).1.map
          (fun r => r.display_time) = .ok (some "NOW") ∧
      (Except.ok (some "2023-11-14T22:13:20Z") : Except Unit (Option String)) ≠
        .ok (some "NOW") := by
  exact ⟨by decide, by decide, by decide⟩

/-- C6 (amended): at a fixed wall-clock instant, normalizing a position
twice yields the identical record and dict provided the raw dict does not
carry an `_account_timestamp` key (the key the first call removes); trade
normalization takes no mutable state at all, so `normalizeTrade` is
idempotent by purity. -/
theorem c6_idempotent_no_hint (now : String) (d : Dict)
    (h : d.find? (fun p => p.1 == "_account_timestamp") = Option.none) :
    (normalizePosition now d).2 = d ∧
      normalizePosition now ((normalizePosition now d).2) = normalizePosition now d := by
  have hd : (normalizePosition now d).2 = d := by
    show d.filter (fun p => p.1 != "_account_timestamp") = d
    rw [List.filter_eq_self]
    intro a ha
    have := List.find?_eq_none.mp h a ha
    simpa using this
  exact ⟨hd, by rw [hd]⟩

/-- A raw position without the `_account_timestamp` key. -/
def c6CleanDict : Dict :=
  [("position_id", PyVal.str "P9"), ("entry_time", PyVal.int 1700000000)]

/-- C6 witness: double normalization of a hint-free position is literally
the same computation. -/
theorem c6_witness :
    (normalizePosition "NOW" c6CleanDict).2 = c6CleanDict ∧
      normalizePosition "NOW" ((normalizePosition "NOW" c6CleanDict).2) =
        normalizePosition "NOW" c6CleanDict :=
  c6_idempotent_no_hint "NOW" c6CleanDict (by rfl)

/-! ### Poller lemmas and claims C1, C5, C7 -/

theorem summarizeTrade_id (d : Dict) : (summarizeTrade d).id = tradeIdOf d := rfl

theorem scanTrades_spec (inited : Bool) (known : List String) :
    ∀ ts, scanTrades inited known ts =
      (validSummaries ts, validIds ts,
        if inited then (validSummaries ts).filter (fun u => decide (u.id ∉ known)) else [])
  | [] => by cases inited <;> simp [scanTrades, validSummaries, validIds]
  | t :: rest => by
    have ih := scanTrades_spec inited known rest
    cases t with
    | dict td =>
      by_cases h : tradeIdOf td = ""
      · simp [scanTrades, validSummaries, validIds, h, ih]
      · cases inited with
        | false => simp [scanTrades, validSummaries, validIds, h, ih]
        | true =>
          by_cases hk : tradeIdOf td ∈ known
          · simp [scanTrades, validSummaries, validIds, h, hk, ih, summarizeTrade_id]
          · simp [scanTrades, validSummaries, validIds, h, hk, ih, summarizeTrade_id]
    | null => simp [scanTrades, validSummaries, validIds, ih]
    | int n => simp [scanTrades, validSummaries, validIds, ih]
    | float q => simp [scanTrades, validSummaries, validIds, ih]
    | str s => simp [scanTrades, validSummaries, validIds, ih]
    | list xs => simp [scanTrades, validSummaries, validIds, ih]

/-- What one loop iteration publishes on a successful cycle. -/
theorem runLoopStep_success (cacheLimit : Nat) (ci : CycleInput) (s : PollerState)
    (ts : List PyVal) (h : parseTrades ci.outcome = .ok ts) :
    runLoopStep cacheLimit ci s =
      { initialized := true
        knownTradeIds := validIds ts
        recentTrades := (validSummaries ts).take cacheLimit
        newTrades := (if s.initialized then
            (validSummaries ts).filter (fun u => decide (u.id ∉ s.knownTradeIds))
          else []).take cacheLimit
        lastPollStarted := some ci.startedAt
        lastPollCompleted := some ci.completedAt
        lastError := Option.none } := by
  unfold runLoopStep pollOnce
  rw [h]
  simp [scanTrades_spec]

/-- What one loop iteration does when the cycle raises. -/
theorem runLoopStep_failure (cacheLimit : Nat) (ci : CycleInput) (s : PollerState)
    (msg : String) (h : parseTrades ci.outcome = .error msg) :
    runLoopStep cacheLimit ci s =
      { s with
          lastPollStarted := some ci.startedAt
          lastError := some msg
          lastPollCompleted := some ci.completedAt } := by
  unfold runLoopStep pollOnce
  rw [h]

/-- Trade dicts with the given ids. -/
def idTrades (ids : List String) : List PyVal :=
  ids.map (fun i => PyVal.dict [("id", PyVal.str i)])

/-- A successful cycle input whose payload lists trades with the given ids. -/
def cycleWith (ids : List String) (a b : String) : CycleInput :=
  ⟨a, b, .ok (.dict [("trades", .list (idTrades ids))])⟩

/-- C1 (amended): on a successful cycle the published `new_trades` is the
in-order list of valid incoming trades whose id is not in the previous
cycle's known-id set — empty before the first successful cycle — truncated
to the cache limit. -/
theorem c1_delta_classification (cacheLimit : Nat) (ci : CycleInput) (s : PollerState)
    (ts : List PyVal) (h : parseTrades ci.outcome = .ok ts) :
    (runLoopStep cacheLimit ci s).newTrades =
      (if s.initialized then
          (validSummaries ts).filter (fun u => decide (u.id ∉ s.knownTradeIds))
        else []).take cacheLimit := by
  rw [runLoopStep_success cacheLimit ci s ts h]

/-- First cycle state of the C1 counterexample (cache limit 1, trade `X`). -/
def c1s1 : PollerState := runLoopStep 1 (cycleWith ["X"] "t1" "t2") initialPollerState

/-- Second cycle state of the C1 counterexample: trades `A`, `B`, both new. -/
def c1s2 : PollerState := runLoopStep 1 (cycleWith ["A", "B"] "t3" "t4") c1s1

/-- C1 counterexample: with cache limit 1, cycle 2 sees `A` and `B`, both
absent from the previous known-id set, yet published `new_trades` contains
only `A` — it is NOT exactly the set of new trades. -/
theorem c1_counterexample :
    c1s1.initialized = true ∧
      ("B" : String) ∉ c1s1.knownTradeIds ∧
      c1s2.newTrades.map (fun t => t.id) = ["A"] ∧
      ("B" : String) ∉ c1s2.newTrades.map (fun t => t.id) := by
  exact ⟨by decide, by decide, by decide, by decide⟩

/-- Spec example, cycle 1: ids `{A, B}`. -/
def c1w1 : PollerState := runLoopStep 50 (cycleWith ["A", "B"] "u1" "u2") initialPollerState

/-- Spec example, cycle 2: ids `{A, B, C}`. -/
def c1w2 : PollerState := runLoopStep 50 (cycleWith ["A", "B", "C"] "u3" "u4") c1w1

/-- Spec example, cycle 3: ids `{B, C}` (`A` disappeared). -/
def c1w3 : PollerState := runLoopStep 50 (cycleWith ["B", "C"] "u5" "u6") c1w2

/-- C1 witness: the spec's three-cycle example under a roomy cache limit:
`[]` pre-init, then exactly `[C]`, then `[]` again after `A` disappears. -/
theorem c1_witness :
    c1w1.newTrades = [] ∧
      c1w2.newTrades.map (fun t => t.id) = ["C"] ∧
      c1w3.newTrades = [] := by
  refine ⟨?_, ?_, ?_⟩
  · show (runLoopStep 50 (cycleWith ["A", "B"] "u1" "u2") initialPollerState).newTrades = []
    rw [c1_delta_classification 50 (cycleWith ["A", "B"] "u1" "u2") initialPollerState
      (idTrades ["A", "B"]) rfl]
    rfl
  · show ((runLoopStep 50 (cycleWith ["A", "B", "C"] "u3" "u4") c1w1).newTrades).map
      (fun t => t.id) = ["C"]
    rw [c1_delta_classification 50 (cycleWith ["A", "B", "C"] "u3" "u4") c1w1
      (idTrades ["A", "B", "C"]) rfl]
    decide
  · show (runLoopStep 50 (cycleWith ["B", "C"] "u5" "u6") c1w2).newTrades = []
    rw [c1_delta_classification 50 (cycleWith ["B", "C"] "u5" "u6") c1w2
      (idTrades ["B", "C"]) rfl]
    rfl

/-- C5: when a cycle fails anywhere (fetch error, JSON failure, or a payload
shape error), the known-id set, recent_trades, new_trades and the
initialized flag keep their last-good values, the message lands in
last_error, last_poll_completed is still updated, and the scheduler loop
simply continues with the next cycle. -/
theorem c5_failure_preserves (cacheLimit : Nat) (ci : CycleInput) (s : PollerState)
    (msg : String) (h : parseTrades ci.outcome = .error msg) :
    (runLoopStep cacheLimit ci s).initialized = s.initialized ∧
      (runLoopStep cacheLimit ci s).knownTradeIds = s.knownTradeIds ∧
      (runLoopStep cacheLimit ci s).recentTrades = s.recentTrades ∧
      (runLoopStep cacheLimit ci s).newTrades = s.newTrades ∧
      (runLoopStep cacheLimit ci s).lastError = some msg ∧
      (runLoopStep cacheLimit ci s).lastPollCompleted = some ci.completedAt ∧
      (∀ rest, runLoop cacheLimit (ci :: rest) s =
        runLoop cacheLimit rest (runLoopStep cacheLimit ci s)) := by
  rw [runLoopStep_failure cacheLimit ci s msg h]
  exact ⟨rfl, rfl, rfl, rfl, rfl, rfl, fun rest => by
    rw [← runLoopStep_failure cacheLimit ci s msg h]
    rfl⟩

/-- A last-good state for the C5 witness: one successful cycle with trade
`A`. -/
def c5Prev : PollerState := runLoopStep 5 (cycleWith ["A"] "v1" "v2") initialPollerState

/-- A failing cycle (`_fetch` raised `boom`). -/
def c5Fail : CycleInput := ⟨"v3", "v4", .error "boom"⟩

/-- C5 witness: a fetch failure after a good cycle preserves the good state,
records `boom` and the completion time, and the loop goes on. -/
theorem c5_witness :
    (runLoopStep 5 c5Fail c5Prev).initialized = c5Prev.initialized ∧
      (runLoopStep 5 c5Fail c5Prev).knownTradeIds = c5Prev.knownTradeIds ∧
      (runLoopStep 5 c5Fail c5Prev).recentTrades = c5Prev.recentTrades ∧
      (runLoopStep 5 c5Fail c5Prev).newTrades = c5Prev.newTrades ∧
      (runLoopStep 5 c5Fail c5Prev).lastError = some "boom" ∧
      (runLoopStep 5 c5Fail c5Prev).lastPollCompleted = some "v4" ∧
      runLoop 5 [c5Fail, cycleWith ["A", "B"] "v5" "v6"] c5Prev =
        runLoop 5 [cycleWith ["A", "B"] "v5" "v6"] (runLoopStep 5 c5Fail c5Prev) := by
  have h := c5_failure_preserves 5 c5Fail c5Prev "boom" rfl
  exact ⟨h.1, h.2.1, h.2.2.1, h.2.2.2.1, h.2.2.2.2.1, h.2.2.2.2.2.1,
    h.2.2.2.2.2.2 [cycleWith ["A", "B"] "v5" "v6"]⟩

/-- First cycle of the C7 counterexample (cache limit 1, trade `A`). -/
def c7s1 : PollerState := runLoopStep 1 (cycleWith ["A"] "w1" "w2") initialPollerState

/-- Second cycle: trades `A`, `B` — `recent_trades` keeps only `A` (trimmed
to the cache limit) while `new_trades` is `[B]`. -/
def c7s2 : PollerState := runLoopStep 1 (cycleWith ["A", "B"] "w3" "w4") c7s1

/-- C7 counterexample: after the second cycle `new_trades = [B]` but
`recent_trades = [A]`: the published `new_trades` is NOT a subset of the
published `recent_trades`, because both lists are truncated to the cache
limit independently. -/
theorem c7_counterexample :
    c7s2.newTrades.map (fun t => t.id) = ["B"] ∧
      c7s2.recentTrades.map (fun t => t.id) = ["A"] ∧
      ¬ (∀ t ∈ c7s2.newTrades, t ∈ c7s2.recentTrades) := by
  refine ⟨by decide, by decide, ?_⟩
  intro hall
  have hb : summarizeTrade [("id", PyVal.str "B")] ∈ c7s2.newTrades := by
    have he : c7s2.newTrades = [summarizeTrade [("id", PyVal.str "B")]] := rfl
    rw [he]
    exact List.mem_singleton.mpr rfl
  have hr := hall _ hb
  have he : c7s2.recentTrades = [summarizeTrade [("id", PyVal.str "A")]] := rfl
  rw [he] at hr
  have heq := List.mem_singleton.mp hr
  have hid : ("B" : String) = "A" := congrArg TradeSummary.id heq
  exact absurd hid (by decide)

/-- C7 (amended): after a successful cycle, `new_trades` is a subset of
`recent_trades` whenever the cycle's valid trades all fit within the cache
limit (the unrestricted claim fails only through the independent
truncation of the two lists). -/
theorem c7_new_subset_recent (cacheLimit : Nat) (ci : CycleInput) (s : PollerState)
    (ts : List PyVal) (h : parseTrades ci.outcome = .ok ts)
    (hlen : (validSummaries ts).length ≤ cacheLimit) :
    ∀ t ∈ (runLoopStep cacheLimit ci s).newTrades,
      t ∈ (runLoopStep cacheLimit ci s).recentTrades := by
  rw [runLoopStep_success cacheLimit ci s ts h]
  intro t ht
  simp only at ht ⊢
  rw [List.take_of_length_le hlen]
  have ht' := List.mem_of_mem_take ht
  cases hs : s.initialized with
  | false => rw [hs] at ht'; exact absurd ht' (List.not_mem_nil t)
  | true =>
    rw [hs] at ht'
    simp only [if_true] at ht'
    exact List.mem_of_mem_filter ht'

/-- C7 witness: the counterexample's trades under a cache limit that fits
them all — `new_trades ⊆ recent_trades` holds. -/
theorem c7_witness :
    (runLoopStep 50 (cycleWith ["A", "B"] "w3" "w4") c7s1).newTrades ⊆
      (runLoopStep 50 (cycleWith ["A", "B"] "w3" "w4") c7s1).recentTrades :=
  c7_new_subset_recent 50 (cycleWith ["A", "B"] "w3" "w4") c7s1
    (idTrades ["A", "B"]) rfl (by decide)

/-! ### Claim C9: non-empty identifiers in every output collection -/

theorem validSummaries_id_ne (ts : List PyVal) : ∀ u ∈ validSummaries ts, u.id ≠ "" := by
  intro u hu
  rcases List.mem_filterMap.mp hu with ⟨t, _, ht⟩
  split at ht
  · split at ht
    · exact Option.noConfusion ht
    · rename_i hne
      cases Option.some.inj ht
      exact hne
  · exact Option.noConfusion ht

theorem dinsert_forall {P : String × NRec → Prop} :
    ∀ (m : PosMap) (k : String) (v : NRec), (∀ kv ∈ m, P kv) → P (k, v) →
      ∀ kv ∈ dinsert m k v, P kv
  | [], _, _ => fun _ hv kv hkv => by
    rcases List.mem_singleton.mp hkv with rfl
    exact hv
  | p :: rest, k, v => fun hm hv kv hkv => by
    unfold dinsert at hkv
    by_cases hp : p.1 = k
    · rw [if_pos hp] at hkv
      rcases List.mem_cons.mp hkv with rfl | hkv
      · exact hv
      · exact hm kv (List.mem_cons_of_mem p hkv)
    · rw [if_neg hp] at hkv
      rcases List.mem_cons.mp hkv with rfl | hkv
      · exact hm _ (List.mem_cons_self _ _)
      · exact dinsert_forall rest k v (fun x hx => hm x (List.mem_cons_of_mem p hx)) hv kv hkv

theorem primaryLoop_id_ne (now : String) :
    ∀ (xs : List PyVal) (m : PosMap), (∀ kv ∈ m, kv.2.id ≠ "") →
      ∀ kv ∈ (primaryLoop now xs m).1, kv.2.id ≠ ""
  | [], m => fun hm kv hkv => hm kv hkv
  | p :: rest, m => fun hm kv hkv => by
    unfold primaryLoop at hkv
    split at hkv
    · split at hkv
      · exact hm kv hkv
      · rename_i pd r hr
        by_cases hid : (r.id != "") = true
        · rw [if_pos hid] at hkv
          exact primaryLoop_id_ne now rest _
            (dinsert_forall m r.id r hm (by simpa using hid)) kv hkv
        · rw [if_neg hid] at hkv
          exact primaryLoop_id_ne now rest m hm kv hkv
    · exact primaryLoop_id_ne now rest m hm kv hkv

theorem primaryMap_shape (now : String) (pr : Except String PyVal) :
    (primaryMap now pr).1 = [] ∨
      ∃ xs, (primaryMap now pr).1 = (primaryLoop now xs []).1 := by
  rcases pr with e | payload
  · exact Or.inl rfl
  rcases payload with _ | n | q | s | ys | fs
  · exact Or.inl rfl
  · exact Or.inl rfl
  · exact Or.inl rfl
  · exact Or.inl rfl
  · exact Or.inl rfl
  · simp only [primaryMap]
    rcases hraw : pyOr (dget fs "positions") (pyOr (dget fs "data") (PyVal.dict fs)) with
      _ | n | q | s | xs | gs
    · exact Or.inl rfl
    · exact Or.inl rfl
    · exact Or.inl rfl
    · exact Or.inl rfl
    · refine Or.inr ⟨xs, ?_⟩
      show (match primaryLoop now xs [] with
        | (m, true) => (m, ["/positions -> exception during normalization"])
        | (m, false) => (m, ([] : List String))).1 = (primaryLoop now xs []).1
      rcases hl : primaryLoop now xs [] with ⟨m, b⟩
      cases b <;> rfl
    · exact Or.inl rfl

theorem primaryMap_id_ne (now : String) (pr : Except String PyVal) :
    ∀ kv ∈ (primaryMap now pr).1, kv.2.id ≠ "" := by
  rcases primaryMap_shape now pr with h | ⟨xs, h⟩
  · rw [h]
    intro kv hkv
    exact absurd hkv (List.not_mem_nil kv)
  · rw [h]
    exact primaryLoop_id_ne now xs [] (fun x hx => absurd hx (List.not_mem_nil x))

theorem mergeFallback_id_ne :
    ∀ (ps : List NRec) (m : PosMap), (∀ kv ∈ m, kv.2.id ≠ "") →
      ∀ kv ∈ mergeFallback m ps, kv.2.id ≠ ""
  | [], m => fun hm kv hkv => hm kv hkv
  | p :: rest, m => fun hm kv hkv => by
    unfold mergeFallback at hkv
    by_cases hc : (p.id != "" && (plookup m p.id).isNone) = true
    · rw [if_pos hc] at hkv
      refine mergeFallback_id_ne rest _ ?_ kv hkv
      intro x hx
      rcases List.mem_append.mp hx with hx | hx
      · exact hm x hx
      · rcases List.mem_singleton.mp hx with rfl
        have := (Bool.and_eq_true _ _).mp hc
        simpa using this.1
    · rw [if_neg hc] at hkv
      exact mergeFallback_id_ne rest m hm kv hkv

theorem mergedPositions_id_ne (env : Env) : ∀ kv ∈ mergedPositions env, kv.2.id ≠ "" :=
  mergeFallback_id_ne _ _ (primaryMap_id_ne env.now env.positionsResult)

theorem runLoop_cons (cacheLimit : Nat) (ci : CycleInput) (rest : List CycleInput)
    (s : PollerState) :
    runLoop cacheLimit (ci :: rest) s = runLoop cacheLimit rest (runLoopStep cacheLimit ci s) :=
  rfl

theorem doGet_ok_shape (env : Env) (p : Option String) (limit : Int)
    (trades : List NRec) (accounts : List ARec)
    (h : doGet env p = .ok limit trades accounts) :
    ∃ recs, trades =
      sortTrades (limitedClosedTrades recs limit ++ (collectOpenPositions env).positions) := by
  unfold doGet at h
  split at h
  · exact GetOutcome.noConfusion h
  · split at h
    · split at h
      · split at h
        · exact GetOutcome.noConfusion h
        · rename_i recs hrecs
          injection h with h1 h2 h3
          refine ⟨recs, ?_⟩
          rw [← h1]
          exact h2.symm
      · exact GetOutcome.noConfusion h
    · exact GetOutcome.noConfusion h

/-- C9: every record of the stateless endpoint's combined output list has a
non-empty id (records that cannot produce one are filtered out or never
indexed), and the poller's cache lists only ever contain summaries with a
non-empty id (trades with a falsy id are skipped before entering them). -/
theorem c9_nonempty_ids :
    (∀ env p limit trades accounts r, doGet env p = .ok limit trades accounts →
        r ∈ trades → r.id ≠ "") ∧
      (∀ cacheLimit cis s,
        (∀ u ∈ s.recentTrades, u.id ≠ "") → (∀ u ∈ s.newTrades, u.id ≠ "") →
        (∀ u ∈ (runLoop cacheLimit cis s).recentTrades, u.id ≠ "") ∧
          (∀ u ∈ (runLoop cacheLimit cis s).newTrades, u.id ≠ "")) := by
  constructor
  · intro env p limit trades accounts r h hr
    rcases doGet_ok_shape env p limit trades accounts h with ⟨recs, htr⟩
    rw [htr] at hr
    have hr2 := (List.perm_insertionSort posRel _).mem_iff.mp hr
    rcases List.mem_append.mp hr2 with hr3 | hr3
    · have h4 := List.mem_of_mem_take hr3
      have h5 := (List.perm_insertionSort posRel _).mem_iff.mp h4
      have h6 := List.mem_filter.mp h5
      simpa using h6.2
    · have h4 := List.mem_of_mem_take hr3
      have h5 := (List.perm_insertionSort posRel _).mem_iff.mp h4
      rcases List.mem_map.mp h5 with ⟨kv, hkv, rfl⟩
      exact mergedPositions_id_ne env kv hkv
  · intro cacheLimit cis s
    induction cis generalizing s with
    | nil => exact fun hrec hnew => ⟨hrec, hnew⟩
    | cons ci rest ih =>
      intro hrec hnew
      rw [runLoop_cons]
      rcases hp : parseTrades ci.outcome with e | ts
      · rw [runLoopStep_failure cacheLimit ci s e hp]
        exact ih _ hrec hnew
      · rw [runLoopStep_success cacheLimit ci s ts hp]
        refine ih _ ?_ ?_
        · intro u hu
          exact validSummaries_id_ne ts u (List.mem_of_mem_take hu)
        · intro u hu
          have h4 := List.mem_of_mem_take hu
          rcases hs : s.initialized with _ | _
          · rw [hs] at h4
            simp only [if_neg Bool.false_ne_true] at h4
            exact absurd h4 (List.not_mem_nil u)
          · rw [hs] at h4
            simp only [if_pos rfl] at h4
            exact validSummaries_id_ne ts u (List.mem_of_mem_filter h4)

/-- Environment of the C9 witness: one trade with an id, one without (it is
dropped), positions empty, account source down. -/
def c9Env : Env :=
  { tradesResult := .ok (.dict [("trades", .list
      [.dict [("trade_id", PyVal.str "T1")], .dict [("model_id", PyVal.str "m")]])])
    positionsResult := .ok (.dict [("positions", .list [])])
    accountResult := .error "down"
    now := "NOW"
    positionsLimit := 200
    defaultLimit := 60 }

/-- The combined trades list the C9 witness environment produces. -/
def c9Trades : List NRec :=
  match doGet c9Env Option.none with
  | .ok _ ts _ => ts
  | .err _ => [baseRec]

/-- C9 witness: concrete non-empty-id checks on the stateless output and on
the poller cache after one cycle. -/
theorem c9_witness :
    (∀ r ∈ c9Trades, r.id ≠ "") ∧
      (∀ u ∈ (runLoop 5 [cycleWith ["A"] "x1" "x2"] initialPollerState).recentTrades,
        u.id ≠ "") := by
  constructor
  · intro r hr
    exact c9_nonempty_ids.1 c9Env Option.none 60 c9Trades [] r rfl hr
  · intro u hu
    exact (c9_nonempty_ids.2 5 [cycleWith ["A"] "x1" "x2"] initialPollerState
      (fun x hx => absurd hx (List.not_mem_nil x))
      (fun x hx => absurd hx (List.not_mem_nil x))).1 u hu

/-! ### Claim C8: `_ensure_iso8601` -/

/-- C8 counterexample: `-2·10^12` has magnitude greater than `1e12`, so per
the claim it would be divided by 1000 and map to `1906-08-16T20:26:40Z`
(second conjunct: that is indeed the value the claimed rule produces); the
code compares signedly, does not divide, and `fromtimestamp` raises — the
call errors instead of returning the claimed string. -/
theorem c8_counterexample :
    ensureIso (.int (-2000000000000)) = .error () ∧
      epochOut (mkRat (-2000000000000) 1000) = .ok (some "1906-08-16T20:26:40Z") := by
  exact ⟨by decide, by decide⟩

/-- C8 (amended): `_ensure_iso8601` returns null on null/blank input;
numeric input goes down the epoch path, divided by 1000 only when the
signed value exceeds `1e12` (so `1700000000000 ↦ 2023-11-14T22:13:20Z`);
numeric strings take the same path; strings recognized by `fromisoformat`
(with or without `Z`/offset, a space allowed for `T`) are converted to UTC
and suffixed with a literal `Z`; unrecognized non-empty strings are passed
through stripped of surrounding whitespace. -/
theorem c8_to_iso8601 :
    ensureIso PyVal.null = .ok Option.none ∧
      (∀ s, pyStrip s = "" → ensureIso (.str s) = .ok Option.none) ∧
      (∀ n : Int, ensureIso (.int n) = epochPath (mkRat n 1)) ∧
      (∀ q : ℚ, gtThreshold q = true → epochPath q = epochOut (mkRat q.num (q.den * 1000))) ∧
      (∀ q : ℚ, gtThreshold q = false → epochPath q = epochOut q) ∧
      ensureIso (.int 1700000000000) = .ok (some "2023-11-14T22:13:20Z") ∧
      (∀ s v, pyStrip s ≠ "" → parseFloat (pyStrip s) = some v →
        ensureIso (.str s) = epochPath v) ∧
      (∀ s dt body, pyStrip s ≠ "" → parseFloat (pyStrip s) = Option.none →
        parseIsoDT (replaceFirstSpace (replaceZ (pyStrip s))) = some dt →
        convertToUTC dt = some body →
        ensureIso (.str s) = .ok (some (body ++ "Z"))) ∧
      (∀ s, pyStrip s ≠ "" → parseFloat (pyStrip s) = Option.none →
        parseIsoDT (replaceFirstSpace (replaceZ (pyStrip s))) = Option.none →
        ensureIso (.str s) = .ok (some (pyStrip s))) := by
  have hstr : ∀ s : String, pyStrip s ≠ "" →
      ensureIso (.str s) = isoStringBranch (pyStrip s) := by
    intro s h
    show (if pyStrip s = "" then (.ok Option.none : Except Unit (Option String))
      else isoStringBranch (pyStrip s)) = _
    rw [if_neg h]
  have hfl : ∀ (c : String) (v : ℚ), parseFloat c = some v →
      isoStringBranch c = epochPath v := by
    intro c v h
    unfold isoStringBranch
    rw [h]
  have hnofl : ∀ c : String, parseFloat c = Option.none →
      isoStringBranch c =
        isoParsedOut (parseIsoDT (replaceFirstSpace (replaceZ c))) c := by
    intro c h
    unfold isoStringBranch
    rw [h]
  have hpo : ∀ (dt : DT) (c body : String), convertToUTC dt = some body →
      isoParsedOut (some dt) c = .ok (some (body ++ "Z")) := by
    intro dt c body h
    show (match convertToUTC dt with
      | some body => (Except.ok (some (body ++ "Z")) : Except Unit (Option String))
      | Option.none => .error ()) = _
    rw [h]
  refine ⟨rfl, ?_, fun n => rfl, ?_, ?_, by decide, ?_, ?_, ?_⟩
  · intro s h
    show (if pyStrip s = "" then (.ok Option.none : Except Unit (Option String))
      else isoStringBranch (pyStrip s)) = _
    rw [if_pos h]
  · intro q h
    unfold epochPath
    rw [if_pos h]
  · intro q h
    unfold epochPath
    rw [if_neg (by rw [h]; exact Bool.false_ne_true)]
  · intro s v hne hv
    rw [hstr s hne, hfl (pyStrip s) v hv]
  · intro s dt body hne hpf hdt hconv
    rw [hstr s hne, hnofl (pyStrip s) hpf, hdt, hpo dt (pyStrip s) body hconv]
  · intro s hne hpf hdt
    rw [hstr s hne, hnofl (pyStrip s) hpf, hdt]
    rfl

/-- C8 witness: the amended rules applied at concrete inputs — a blank
string, a space-and-`Z` timestamp, an unrecognized string, and a numeric
string. -/
theorem c8_witness :
    ensureIso (.str "   ") = .ok Option.none ∧
      ensureIso (.str "2023-11-14 22:13:20Z") = .ok (some "2023-11-14T22:13:20Z") ∧
      ensureIso (.str "hello world") = .ok (some "hello world") ∧
      ensureIso (.str " 1700000000 ") = epochPath (mkRat 1700000000 1) := by
  refine ⟨c8_to_iso8601.2.1 "   " (by decide), ?_, ?_, ?_⟩
  · exact c8_to_iso8601.2.2.2.2.2.2.2.1 "2023-11-14 22:13:20Z"
      ⟨2023, 11, 14, 22, 13, 20, 0, some 0⟩ "2023-11-14T22:13:20"
      (by decide) (by decide) (by decide) (by decide)
  · exact c8_to_iso8601.2.2.2.2.2.2.2.2 "hello world" (by decide) (by decide) (by decide)
  · exact c8_to_iso8601.2.2.2.2.2.2.1 " 1700000000 " (mkRat 1700000000 1)
      (by decide) (by decide)

/-! ### Claim C10: `limit` query-parameter handling -/

/-- Whether `do_GET` answered with the 502 error body. -/
def isErr : GetOutcome → Bool
  | .ok _ _ _ => false
  | .err _ => true

theorem sortTrades_length (l : List NRec) : (sortTrades l).length = l.length :=
  (List.perm_insertionSort posRel l).length_eq

theorem doGet_eq (env : Env) (p : Option String) (fs : Dict)
    (h : env.tradesResult = .ok (.dict fs)) :
    doGet env p =
      match dget fs "trades" with
      | PyVal.list xs =>
        match normTradeList xs with
        | .error _ => .err "exception during normalization"
        | .ok recs =>
          .ok (limitFrom p env.defaultLimit)
            (sortTrades (limitedClosedTrades recs (limitFrom p env.defaultLimit) ++
              (collectOpenPositions env).positions))
            (collectOpenPositions env).accounts
      | _ => .err "Unexpected response shape from /trades" := by
  unfold doGet
  rw [h]

theorem doGet_eq_list (env : Env) (p : Option String) (fs : Dict) (ys : List PyVal)
    (h : env.tradesResult = .ok (.dict fs)) (hd : dget fs "trades" = .list ys) :
    doGet env p =
      match normTradeList ys with
      | .error _ => .err "exception during normalization"
      | .ok recs =>
        .ok (limitFrom p env.defaultLimit)
          (sortTrades (limitedClosedTrades recs (limitFrom p env.defaultLimit) ++
            (collectOpenPositions env).positions))
          (collectOpenPositions env).accounts := by
  rw [doGet_eq env p fs h, hd]

/-- C10: a `limit` parameter that does not parse as an integer silently
falls back to the configured default and never affects whether the request
errors; the closed-trades portion is truncated to `max(limit, 1)` entries,
so a zero or negative limit still yields up to one trade. -/
theorem c10_limit_handling :
    (∀ s dflt, parseIntPy s = Option.none → limitFrom (some s) dflt = dflt) ∧
      (∀ dflt, limitFrom Option.none dflt = dflt) ∧
      (∀ env p p', isErr (doGet env p) = isErr (doGet env p')) ∧
      (∀ recs limit, (limitedClosedTrades recs limit).length =
        min (max limit 1).toNat (recs.filter (fun r => r.id != "")).length) ∧
      (∀ recs limit, limit ≤ 0 →
        (limitedClosedTrades recs limit).length =
          min 1 (recs.filter (fun r => r.id != "")).length) := by
  refine ⟨?_, fun dflt => rfl, ?_, ?_, ?_⟩
  · intro s dflt h
    show (parseIntPy s).getD dflt = dflt
    rw [h]
    rfl
  · intro env p p'
    rcases henv : env.tradesResult with e | payload
    · unfold doGet
      rw [henv]
    · rcases payload with _ | n | q | t | xs | fs
      · unfold doGet; rw [henv]
      · unfold doGet; rw [henv]
      · unfold doGet; rw [henv]
      · unfold doGet; rw [henv]
      · unfold doGet; rw [henv]
      · rcases hd : dget fs "trades" with _ | n | q | t | ys | gs
        · rw [doGet_eq env p fs henv, doGet_eq env p' fs henv, hd]
        · rw [doGet_eq env p fs henv, doGet_eq env p' fs henv, hd]
        · rw [doGet_eq env p fs henv, doGet_eq env p' fs henv, hd]
        · rw [doGet_eq env p fs henv, doGet_eq env p' fs henv, hd]
        · rw [doGet_eq_list env p fs ys henv hd, doGet_eq_list env p' fs ys henv hd]
          rcases hn : normTradeList ys with e | recs <;> rfl
        · rw [doGet_eq env p fs henv, doGet_eq env p' fs henv, hd]
  · intro recs limit
    unfold limitedClosedTrades
    rw [List.length_take, sortTrades_length]
  · intro recs limit h
    have h1 : max limit 1 = 1 := by omega
    unfold limitedClosedTrades
    rw [h1, List.length_take, sortTrades_length]
    rfl

/-- C10 witness: `limit=abc` falls back to the default 60 and errs exactly
when `limit=7` would; `limit=0` on two valid trades yields exactly one. -/
theorem c10_witness :
    limitFrom (some "abc") 60 = 60 ∧
      isErr (doGet c9Env (some "abc")) = isErr (doGet c9Env (some "7")) ∧
      (limitedClosedTrades [{ baseRec with id := "A" }, { baseRec with id := "B" }] 0).length =
        1 := by
  refine ⟨c10_limit_handling.1 "abc" 60 (by decide),
    c10_limit_handling.2.2.1 c9Env (some "abc") (some "7"), ?_⟩
  rw [c10_limit_handling.2.2.2.2 [{ baseRec with id := "A" }, { baseRec with id := "B" }] 0
    (by omega)]
  decide
